import Mathlib

/-!
Verification of the input-definition and binding engine of the
supercharge/console repository (src/input/argv-input.ts together with the
bundled InputDefinition module). The definitions below are a shallow
embedding of the TypeScript source: JavaScript `string | undefined` values
become `Option String`, thrown exceptions become `Except`, the
insertion-ordered `Set` collections become `List`, and the bound-value
`Map` containers become association lists with JavaScript `Map.set`
semantics (overwrite in place, otherwise append).
-/

deriving instance DecidableEq for Except

namespace Console

/-- Option-token values as produced by the external tokenizer: the spec
(section 9) describes them as a tagged union of string, boolean and number. -/
inductive Value where
  | str (s : String)
  | bool (b : Bool)
  | num (n : Int)
deriving DecidableEq

/-- An InputArgument value object: identity is its name (spec section 3);
description, required flag and default value never influence binding or
registration and are omitted. -/
structure InputArgument where
  name : String
deriving DecidableEq

/-- An InputOption value object: a name plus a list of shortcut strings
(`shortcuts()` returns a string array, see command.ts). -/
structure InputOption where
  name : String
  shortcuts : List String
deriving DecidableEq

/-- The InputDefinition meta data: an insertion-ordered collection of
arguments and one of options (the source stores both in supercharge Set
instances which preserve insertion order). -/
structure InputDefinition where
  arguments : List InputArgument
  options : List InputOption
deriving DecidableEq

/-- A JavaScript `string | number` lookup key, as accepted at runtime by
InputDefinition.hasArgument / hasOption / argument. -/
inductive NameOrIndex where
  | str (s : String)
  | num (n : Nat)

/-- InputDefinition.hasArgument: an integer key indexes into the ordered
argument array and tests truthiness of the element; a string key compares
against argument names. -/
def InputDefinition.hasArgument (d : InputDefinition) (name : NameOrIndex) : Bool :=
  match name with
  | .num i => decide (i < d.arguments.length)
  | .str s => d.arguments.any (fun a => a.name == s)

/-- InputDefinition.argument: `find(argument => argument.name() === name)`.
JavaScript strict equality between a string and a number is always false,
so a numeric index key never matches any argument. -/
def InputDefinition.argument (d : InputDefinition) (name : NameOrIndex) : Option InputArgument :=
  d.arguments.find? (fun a =>
    match name with
    | .str s => a.name == s
    | .num _ => false)

/-- InputDefinition.hasOption: same runtime dispatch as hasArgument. -/
def InputDefinition.hasOption (d : InputDefinition) (name : NameOrIndex) : Bool :=
  match name with
  | .num i => decide (i < d.options.length)
  | .str s => d.options.any (fun o => o.name == s)

/-- InputDefinition.option: `find(option => option.name() === name)`. -/
def InputDefinition.option (d : InputDefinition) (name : NameOrIndex) : Option InputOption :=
  d.options.find? (fun o =>
    match name with
    | .str s => o.name == s
    | .num _ => false)

/-- Modelled from the spec: `argumentNames()` is called from argv-input.ts
line 73 but its body is not among the available sources; the spec (section
4.2) says it "produces the ordered sequence of argument names". -/
def InputDefinition.argumentNames (d : InputDefinition) : List String :=
  d.arguments.map (fun a => a.name)

/-- Modelled from the spec: `hasOptionShortcut` is called from argv-input.ts
line 89 but missing from the sources; spec section 4.3 step 1: the key
matches a registered shortcut. -/
def InputDefinition.hasOptionShortcut (d : InputDefinition) (s : String) : Bool :=
  d.options.any (fun o => o.shortcuts.contains s)

/-- Modelled from the spec: `optionByShortcut` is called from argv-input.ts
line 90 but missing from the sources; spec section 4.3 step 1: resolve the
shortcut to the owning option. -/
def InputDefinition.optionByShortcut (d : InputDefinition) (s : String) : Option InputOption :=
  d.options.find? (fun o => o.shortcuts.contains s)

/-- Character-list prefix test, used to embed the JavaScript
`String.prototype.includes` substring test. -/
def charsPrefixOf : List Char → List Char → Bool
  | [], _ => true
  | _ :: _, [] => false
  | a :: as, b :: bs => a == b && charsPrefixOf as bs

/-- Character-list substring test: the needle occurs somewhere in the
haystack (JavaScript `haystack.includes(needle)`). -/
def charsContains (needle : List Char) : List Char → Bool
  | [] => charsPrefixOf needle []
  | c :: hay => charsPrefixOf needle (c :: hay) || charsContains needle hay

/-- Embedding of `Str(s).includes(needles)` from the external
supercharge/strings library as used at argv-input.ts line 184: true when
the string contains one of the needle strings as a substring. -/
def strIncludes (s : String) (needles : List String) : Bool :=
  needles.any (fun n => charsContains n.data s.data)

/-- Errors thrown by the engine. The source throws plain Error objects;
each constructor stands for one throw site and carries the data
interpolated into its message. -/
inductive ConsoleError where
  | duplicateOption (name : String)
  | duplicateShortcut (shortcut : String) (owner : String)
  | duplicateArgument (name : String)
  | noArgumentsExpected
  | tooManyArguments (expected : List String)
  | unexpectedOption (key : String)
deriving DecidableEq

/-- The user-facing message of each error, as interpolated in the source. -/
def ConsoleError.message : ConsoleError → String
  | .duplicateOption name => "Option \"" ++ name ++ "\" is already registered."
  | .duplicateShortcut shortcut owner =>
      "Shortcut \"" ++ shortcut ++ "\" is already registered for option \"" ++ owner ++ "\"."
  | .duplicateArgument name => "Option \"" ++ name ++ "\" is already registered."
  | .noArgumentsExpected => "No arguments expected"
  | .tooManyArguments expected =>
      "Too many arguments: expected arguments \"" ++ String.intercalate ", " expected ++ "\""
  | .unexpectedOption key => "Unexpected option \"" ++ key ++ "\""

/-- InputDefinition.addOption: reject a duplicate name, then scan every
shortcut of the new option against every registered option's shortcut list
(the nested forEach at argv-input.ts lines 182-188, whose first hit
throws), and only then add the option. -/
def InputDefinition.addOption (d : InputDefinition) (o : InputOption) :
    Except ConsoleError InputDefinition :=
  if d.hasOption (.str o.name) then
    .error (.duplicateOption o.name)
  else
    match o.shortcuts.findSome? (fun shortcut =>
      (d.options.find? (fun existing => strIncludes shortcut existing.shortcuts)).map
        (fun existing => (shortcut, existing.name))) with
    | some (shortcut, owner) => .error (.duplicateShortcut shortcut owner)
    | none => .ok { d with options := d.options ++ [o] }

/-- InputDefinition.addArgument: reject a duplicate name, then append. The
throw happens before the add, so a failing call leaves the definition
untouched (the error branch carries no new definition). -/
def InputDefinition.addArgument (d : InputDefinition) (a : InputArgument) :
    Except ConsoleError InputDefinition :=
  if d.hasArgument (.str a.name) then
    .error (.duplicateArgument a.name)
  else
    .ok { d with arguments := d.arguments ++ [a] }

/-- Modelled from the spec: the bound-value containers (`this.arguments()`
and `this.options()` of the Input base class, which is not among the
available sources) are name-to-value mappings (spec section 3) with
JavaScript Map.set semantics. The key type Option String embeds the
JavaScript `string | undefined` keys that the binder actually passes. -/
abbrev BoundValues (α : Type) := List (Option String × α)

/-- JavaScript Map.set: overwrite in place when the key exists, otherwise
append at the end. -/
def boundSet {α : Type} (m : BoundValues α) (k : Option String) (v : α) : BoundValues α :=
  if m.any (fun p => p.fst == k) then
    m.map (fun p => if p.fst == k then (k, v) else p)
  else
    m ++ [(k, v)]

/-- ArgvInput.assignArgumentsFrom: fold the positional tokens in order,
tracking the running index of the forEach. A token whose index has a
registered argument is bound under `argument(index)?.name()` (see
InputDefinition.argument for why that lookup misses); otherwise the
matching throw aborts the whole fold. -/
def assignArgumentsFrom (d : InputDefinition) :
    Nat → BoundValues String → List String → Except ConsoleError (BoundValues String)
  | _, bound, [] => .ok bound
  | index, bound, token :: rest =>
    if d.hasArgument (.num index) then
      assignArgumentsFrom d (index + 1)
        (boundSet bound ((d.argument (.num index)).map (fun a => a.name)) token) rest
    else if d.arguments.isEmpty then
      .error .noArgumentsExpected
    else
      .error (.tooManyArguments d.argumentNames)

/-- ArgvInput.assignOptionsFrom: fold the option tokens in object-entry
order; shortcut keys resolve to the owning option's name via `setOption`,
known names bind directly, anything else throws. -/
def assignOptionsFrom (d : InputDefinition) :
    BoundValues Value → List (String × Value) → Except ConsoleError (BoundValues Value)
  | bound, [] => .ok bound
  | bound, (name, value) :: rest =>
    if d.hasOptionShortcut name then
      assignOptionsFrom d
        (boundSet bound ((d.optionByShortcut name).map (fun o => o.name)) value) rest
    else if d.hasOption (.str name) then
      assignOptionsFrom d (boundSet bound (some name) value) rest
    else
      .error (.unexpectedOption name)

/-- The minimist output consumed by ArgvInput.assignParsedInput: the
positional token list `_` plus the option key/value entries. -/
structure ParsedArgs where
  positional : List String
  options : List (String × Value)

/-- ArgvInput.assignParsedInput: bind the positional tokens after the
leading command-name token (`args.slice(1)`), then the option tokens; a
throw in the argument phase prevents the option phase from running. -/
def assignParsedInput (d : InputDefinition) (p : ParsedArgs) :
    Except ConsoleError (BoundValues String × BoundValues Value) := do
  let boundArguments ← assignArgumentsFrom d 0 [] (p.positional.drop 1)
  let boundOptions ← assignOptionsFrom d [] p.options
  return (boundArguments, boundOptions)

/-- ArgvInput.firstArgument: `this.parsed._[0] ?? ''`. -/
def firstArgument (p : ParsedArgs) : String :=
  p.positional.headD ""

/-- Discriminator: the call failed with the duplicate-shortcut error. -/
def isDuplicateShortcutError : Except ConsoleError InputDefinition → Bool
  | .error (.duplicateShortcut _ _) => true
  | _ => false

/-- Discriminator: positional binding completed without throwing. -/
def isOkResult : Except ConsoleError (BoundValues String) → Bool
  | .ok _ => true
  | .error _ => false

/-- A definition with the single argument "file" and no options (the spec's
section 8 scenario). -/
def dFile : InputDefinition := ⟨[⟨"file"⟩], []⟩

/-- A definition with the single option "verbose" with shortcut "v". -/
def dVerbose : InputDefinition := ⟨[], [⟨"verbose", ["v"]⟩]⟩

/-- A definition where the name of option "x" is also the shortcut of
option "y". -/
def dShadow : InputDefinition := ⟨[], [⟨"x", ["v"]⟩, ⟨"y", ["x"]⟩]⟩

/-- A definition with two arguments, "source" and "target". -/
def dTwo : InputDefinition := ⟨[⟨"source"⟩, ⟨"target"⟩], []⟩

theorem charsPrefixOf_refl : ∀ l : List Char, charsPrefixOf l l = true
  | [] => rfl
  | a :: as => by simp [charsPrefixOf, charsPrefixOf_refl as]

theorem charsContains_refl : ∀ l : List Char, charsContains l l = true
  | [] => rfl
  | c :: hay => by simp [charsContains, charsPrefixOf_refl]

theorem strIncludes_of_mem {s : String} {needles : List String} (h : s ∈ needles) :
    strIncludes s needles = true := by
  simp only [strIncludes, List.any_eq_true]
  exact ⟨s, h, charsContains_refl s.data⟩

/-- The numeric-index lookup of InputDefinition.argument never finds an
argument: the embedded strict-equality predicate is constantly false. -/
theorem argument_num_eq_none (d : InputDefinition) (i : Nat) :
    d.argument (.num i) = none := by
  simp [InputDefinition.argument]

/-- When the definition has arguments but the tokens outrun them, the fold
reaches an index past the declared arguments and throws the too-many error
carrying the full ordered name list. -/
theorem assignArguments_tooMany (d : InputDefinition) :
    ∀ (toks : List String) (i : Nat) (bound : BoundValues String),
      d.arguments ≠ [] → i ≤ d.arguments.length → d.arguments.length < i + toks.length →
      assignArgumentsFrom d i bound toks = .error (.tooManyArguments d.argumentNames)
  | [], _, _, _, hle, hlt => by simp at hlt; omega
  | t :: rest, i, bound, hne, hle, hlt => by
    by_cases hi : i < d.arguments.length
    · have h1 : d.hasArgument (.num i) = true := by
        simp [InputDefinition.hasArgument, hi]
      simp only [assignArgumentsFrom, h1, if_true]
      exact assignArguments_tooMany d rest (i + 1) _ hne (by omega)
        (by simp at hlt; omega)
    · have h1 : d.hasArgument (.num i) = false := by
        simp [InputDefinition.hasArgument]; omega
      have h2 : d.arguments.isEmpty = false := by
        simpa [List.isEmpty_iff] using hne
      simp [assignArgumentsFrom, h1, h2]

/-- The no-arguments-expected error is thrown only when the definition has
no arguments at all. -/
theorem noArguments_only_when_empty (d : InputDefinition) :
    ∀ (toks : List String) (i : Nat) (bound : BoundValues String),
      assignArgumentsFrom d i bound toks = .error .noArgumentsExpected →
      d.arguments = []
  | [], _, _, h => by simp [assignArgumentsFrom] at h
  | t :: rest, i, bound, h => by
    by_cases hi : d.hasArgument (.num i) = true
    · simp only [assignArgumentsFrom, hi, if_true] at h
      exact noArguments_only_when_empty d rest (i + 1) _ h
    · simp only [assignArgumentsFrom, hi, if_false, Bool.false_eq_true] at h
      by_cases he : d.arguments.isEmpty = true
      · exact List.isEmpty_iff.mp he
      · simp [he] at h

/-- JavaScript Map.set with the undefined key keeps every key of an
all-undefined-keyed map undefined. -/
theorem boundSet_none_keys {α : Type} (m : BoundValues α) (v : α)
    (h : ∀ p ∈ m, p.fst = none) :
    ∀ p ∈ boundSet m none v, p.fst = none := by
  intro p hp
  unfold boundSet at hp
  by_cases hc : m.any (fun q => q.fst == none) = true
  · rw [if_pos hc] at hp
    obtain ⟨q, hq, rfl⟩ := List.mem_map.mp hp
    by_cases hqk : (q.fst == none) = true
    · simp [hqk]
    · simp only [hqk, if_false, Bool.false_eq_true]
      exact h q hq
  · rw [if_neg hc] at hp
    rcases List.mem_append.mp hp with hin | hone
    · exact h p hin
    · simp only [List.mem_singleton] at hone
      rw [hone]

/-- While tokens remain within the declared argument count the fold never
throws, and (because the numeric lookup always misses) every binding lands
under the undefined key. -/
theorem assignArguments_ok (d : InputDefinition) :
    ∀ (toks : List String) (i : Nat) (bound : BoundValues String),
      i + toks.length ≤ d.arguments.length →
      (∀ p ∈ bound, p.fst = none) →
      ∃ m, assignArgumentsFrom d i bound toks = .ok m ∧ ∀ p ∈ m, p.fst = none
  | [], _, bound, _, hkeys => ⟨bound, rfl, hkeys⟩
  | t :: rest, i, bound, hle, hkeys => by
    have hi : d.hasArgument (.num i) = true := by
      simp only [List.length_cons] at hle
      simp [InputDefinition.hasArgument]; omega
    have harg : (d.argument (.num i)).map (fun a => a.name) = none := by
      rw [argument_num_eq_none]; rfl
    have hkeys2 : ∀ p ∈ boundSet bound ((d.argument (.num i)).map (fun a => a.name)) t,
        p.fst = none := by
      rw [harg]; exact boundSet_none_keys bound t hkeys
    obtain ⟨m, hm, hk⟩ := assignArguments_ok d rest (i + 1)
      (boundSet bound ((d.argument (.num i)).map (fun a => a.name)) t)
      (by simp only [List.length_cons] at hle; omega) hkeys2
    refine ⟨m, ?_, hk⟩
    simp only [assignArgumentsFrom, hi, if_true]
    exact hm

/-- C1: the claim says binding assigns the i-th positional token under the
name of the i-th registered argument; the code instead binds it under the
undefined key, because InputDefinition.argument compares the numeric index
against string names with strict equality (always false) even though
hasArgument(index) succeeded. Evaluated at the failing input: one declared
argument "file", one token "a.txt". -/
theorem claim_positional_binding_binds_under_undefined :
    dFile.hasArgument (.num 0) = true ∧
    dFile.argument (.num 0) = none ∧
    assignArgumentsFrom dFile 0 [] ["a.txt"] = .ok [(none, "a.txt")] ∧
    assignArgumentsFrom dFile 0 [] ["a.txt"] ≠ .ok [(some "file", "a.txt")] := by
  decide

/-- C2 counterexample: adding a second option whose shortcut set intersects
the existing option's ({"v","x"} meets {"v"}) but whose name collides too
fails with the duplicate-OPTION error, not the duplicate-shortcut error,
because addOption checks the name first. -/
theorem claim_shortcut_intersection_counterexample :
    "v" ∈ (⟨"verbose", ["v", "x"]⟩ : InputOption).shortcuts ∧
    "v" ∈ (⟨"verbose", ["v"]⟩ : InputOption).shortcuts ∧
    dVerbose.addOption ⟨"verbose", ["v", "x"]⟩ = .error (.duplicateOption "verbose") ∧
    isDuplicateShortcutError (dVerbose.addOption ⟨"verbose", ["v", "x"]⟩) = false := by
  decide

/-- C2 (amended): for every definition containing an option and every
further option whose NAME is not already registered and whose shortcut set
intersects the existing option's shortcut set, addOption fails with the
duplicate-shortcut error (and hence the option is not added). -/
theorem claim_shortcut_intersection_amended
    (d : InputDefinition) (o existing : InputOption) (s : String)
    (hmem : existing ∈ d.options) (ho : s ∈ o.shortcuts) (hex : s ∈ existing.shortcuts)
    (hname : d.hasOption (.str o.name) = false) :
    isDuplicateShortcutError (d.addOption o) = true := by
  unfold InputDefinition.addOption
  simp only [hname, Bool.false_eq_true, if_false]
  cases hfind : o.shortcuts.findSome? (fun shortcut =>
      (d.options.find? (fun existing => strIncludes shortcut existing.shortcuts)).map
        (fun existing => (shortcut, existing.name))) with
  | none =>
    exfalso
    have hall := List.findSome?_eq_none_iff.mp hfind s ho
    cases hf2 : d.options.find? (fun e => strIncludes s e.shortcuts) with
    | none =>
      have := List.find?_eq_none.mp hf2 existing hmem
      exact this (strIncludes_of_mem hex)
    | some e => rw [hf2] at hall; simp at hall
  | some pair => rw [isDuplicateShortcutError]

/-- C2 witness: the amended statement at a concrete input ("color" with
shortcut "v" added to a definition already owning shortcut "v"). -/
theorem claim_shortcut_intersection_amended_witness :
    isDuplicateShortcutError (dVerbose.addOption ⟨"color", ["v"]⟩) = true :=
  claim_shortcut_intersection_amended dVerbose ⟨"color", ["v"]⟩ ⟨"verbose", ["v"]⟩ "v"
    (by decide) (by decide) (by decide) (by decide)

/-- C3: binding more positional tokens than declared arguments (at least
one declared) fails with the too-many-arguments error whose payload is the
full ordered list of declared argument names, and whose message enumerates
that list joined by a comma separator. -/
theorem claim_too_many_arguments (d : InputDefinition) (toks : List String)
    (hne : d.arguments ≠ []) (hlen : d.arguments.length < toks.length) :
    assignArgumentsFrom d 0 [] toks = .error (.tooManyArguments d.argumentNames) ∧
    d.argumentNames = d.arguments.map (fun a => a.name) ∧
    (ConsoleError.tooManyArguments d.argumentNames).message =
      "Too many arguments: expected arguments \"" ++
        String.intercalate ", " d.argumentNames ++ "\"" :=
  ⟨assignArguments_tooMany d toks 0 [] hne (Nat.zero_le _) (by omega), rfl, rfl⟩

/-- C3 witness: two tokens against the single declared argument "file". -/
theorem claim_too_many_arguments_witness :
    assignArgumentsFrom dFile 0 [] ["a.txt", "b.txt"]
        = .error (.tooManyArguments dFile.argumentNames) ∧
    dFile.argumentNames = dFile.arguments.map (fun a => a.name) ∧
    (ConsoleError.tooManyArguments dFile.argumentNames).message =
      "Too many arguments: expected arguments \"" ++
        String.intercalate ", " dFile.argumentNames ++ "\"" :=
  claim_too_many_arguments dFile ["a.txt", "b.txt"] (by decide) (by decide)

/-- C4: an option token whose key is neither a registered shortcut nor a
registered option name makes the option fold fail with the
unexpected-option error naming that key. -/
theorem claim_unexpected_option (d : InputDefinition) (bound : BoundValues Value)
    (key : String) (v : Value) (rest : List (String × Value))
    (h1 : d.hasOptionShortcut key = false) (h2 : d.hasOption (.str key) = false) :
    assignOptionsFrom d bound ((key, v) :: rest) = .error (.unexpectedOption key) ∧
    (ConsoleError.unexpectedOption key).message = "Unexpected option \"" ++ key ++ "\"" := by
  constructor
  · simp [assignOptionsFrom, h1, h2]
  · rfl

/-- C4 witness: the key "bogus" against a definition with no options. -/
theorem claim_unexpected_option_witness :
    assignOptionsFrom dFile [] [("bogus", .bool true)]
        = .error (.unexpectedOption "bogus") ∧
    (ConsoleError.unexpectedOption "bogus").message =
      "Unexpected option \"" ++ "bogus" ++ "\"" :=
  claim_unexpected_option dFile [] "bogus" (.bool true) [] (by decide) (by decide)

/-- C5 counterexample: in a reachable definition where option "x" (shortcut
"v") coexists with option "y" (shortcut "x"), a token keyed by the full
name "x" of the first option binds under "y" (the shortcut check runs
first), while its shortcut "v" binds under "x" — the two entries differ, so
shortcut/name substitution is not equivalent as claimed. -/
theorem claim_shortcut_name_equivalence_counterexample :
    InputDefinition.addOption ⟨[], [⟨"x", ["v"]⟩]⟩ ⟨"y", ["x"]⟩ = .ok dShadow ∧
    assignOptionsFrom dShadow [] [("v", .bool true)] = .ok [(some "x", .bool true)] ∧
    assignOptionsFrom dShadow [] [("x", .bool true)] = .ok [(some "y", .bool true)] ∧
    [(some "x", Value.bool true)] ≠ [(some "y", Value.bool true)] := by
  decide

/-- C5 (amended): provided the option's full name is not itself a
registered shortcut of any option, and the shortcut resolves to this
option, binding a token keyed by the shortcut yields exactly the same
bound-options result as binding the token keyed by the full name. -/
theorem claim_shortcut_name_equivalence_amended
    (d : InputDefinition) (o : InputOption) (s : String) (v : Value)
    (bound : BoundValues Value)
    (hres : d.optionByShortcut s = some o)
    (hnotshort : d.hasOptionShortcut o.name = false) :
    assignOptionsFrom d bound [(s, v)] = assignOptionsFrom d bound [(o.name, v)] := by
  have hres2 : d.options.find? (fun o2 => o2.shortcuts.contains s) = some o := hres
  have hmem : o ∈ d.options := List.mem_of_find?_eq_some hres2
  have hpred : o.shortcuts.contains s = true := by
    simpa using List.find?_some hres2
  have hshort : d.hasOptionShortcut s = true := by
    simp only [InputDefinition.hasOptionShortcut, List.any_eq_true]
    exact ⟨o, hmem, hpred⟩
  have hopt : d.hasOption (.str o.name) = true := by
    simp only [InputDefinition.hasOption, List.any_eq_true]
    exact ⟨o, hmem, by simp⟩
  simp [assignOptionsFrom, hshort, hres, hnotshort, hopt]

/-- C5 witness: the amended statement at the concrete definition with
option "verbose", shortcut "v". -/
theorem claim_shortcut_name_equivalence_amended_witness :
    assignOptionsFrom dVerbose [] [("v", .bool true)]
      = assignOptionsFrom dVerbose [] [("verbose", .bool true)] :=
  claim_shortcut_name_equivalence_amended dVerbose ⟨"verbose", ["v"]⟩ "v" (.bool true) []
    (by decide) (by decide)

/-- C6: adding an argument whose name equals an already-registered
argument's name fails with the duplicate-argument error and produces no
updated definition (the throw precedes the add, so the argument set is
untouched). -/
theorem claim_duplicate_argument (d : InputDefinition) (a existing : InputArgument)
    (hmem : existing ∈ d.arguments) (hname : a.name = existing.name) :
    d.addArgument a = .error (.duplicateArgument a.name) ∧
    ∀ d2, d.addArgument a ≠ .ok d2 := by
  have h : d.hasArgument (.str a.name) = true := by
    simp only [InputDefinition.hasArgument, List.any_eq_true]
    exact ⟨existing, hmem, by simp [hname]⟩
  have heq : d.addArgument a = .error (.duplicateArgument a.name) := by
    simp [InputDefinition.addArgument, h]
  exact ⟨heq, fun d2 hc => by rw [heq] at hc; exact Except.noConfusion hc⟩

/-- C6 witness: adding a second argument named "file" to the definition
already declaring "file". -/
theorem claim_duplicate_argument_witness :
    dFile.addArgument ⟨"file"⟩ = .error (.duplicateArgument "file") ∧
    dFile.addArgument ⟨"file"⟩ ≠ .ok dFile :=
  ⟨(claim_duplicate_argument dFile ⟨"file"⟩ ⟨"file"⟩ (by decide) rfl).1,
   (claim_duplicate_argument dFile ⟨"file"⟩ ⟨"file"⟩ (by decide) rfl).2 dFile⟩

/-- C7: a non-empty positional token list against a definition with zero
registered arguments fails with the no-arguments-expected error, and that
error is thrown only in the zero-arguments case. -/
theorem claim_no_arguments_expected (d : InputDefinition) (toks : List String)
    (hempty : d.arguments = []) (hne : toks ≠ []) :
    assignArgumentsFrom d 0 [] toks = .error .noArgumentsExpected ∧
    ∀ (d2 : InputDefinition) (i : Nat) (bound : BoundValues String) (toks2 : List String),
      assignArgumentsFrom d2 i bound toks2 = .error .noArgumentsExpected →
      d2.arguments = [] := by
  constructor
  · cases toks with
    | nil => exact absurd rfl hne
    | cons t rest =>
      have h1 : d.hasArgument (.num 0) = false := by
        simp [InputDefinition.hasArgument, hempty]
      have h2 : d.arguments.isEmpty = true := by simp [hempty]
      simp [assignArgumentsFrom, h1, h2]
  · exact fun d2 i bound toks2 => noArguments_only_when_empty d2 toks2 i bound

/-- C7 witness: one token against the empty definition. -/
theorem claim_no_arguments_expected_witness :
    assignArgumentsFrom ⟨[], []⟩ 0 [] ["a.txt"] = .error .noArgumentsExpected :=
  (claim_no_arguments_expected ⟨[], []⟩ ["a.txt"] rfl (by decide)).1

/-- C8: binding strictly fewer positional tokens than declared arguments
raises no error, and the names of arguments at positions beyond the
supplied tokens never appear as keys of the bound map (they are left
unbound; no missing-required-argument check exists at this layer). -/
theorem claim_fewer_tokens_succeeds (d : InputDefinition) (toks : List String)
    (h : toks.length < d.arguments.length) :
    ∃ m, assignArgumentsFrom d 0 [] toks = .ok m ∧
      ∀ j, toks.length ≤ j → ∀ a, d.arguments[j]? = some a →
        ∀ v, (some a.name, v) ∉ m := by
  obtain ⟨m, hm, hk⟩ := assignArguments_ok d toks 0 [] (by omega)
    (by intro p hp; exact absurd hp (List.not_mem_nil p))
  refine ⟨m, hm, ?_⟩
  intro j hj a hget v hcontra
  have := hk _ hcontra
  simp at this

/-- C8 witness: one token against the two-argument definition completes
without an error. -/
theorem claim_fewer_tokens_succeeds_witness :
    isOkResult (assignArgumentsFrom dTwo 0 [] ["a.txt"]) = true := by
  obtain ⟨m, hm, _⟩ := claim_fewer_tokens_succeeds dTwo ["a.txt"] (by decide)
  rw [hm]; rfl

/-- C9: binding is deterministic — it is a pure function of the parsed
tokens and the definition, so identical inputs give identical outcomes. -/
theorem claim_binding_deterministic (d1 d2 : InputDefinition) (p1 p2 : ParsedArgs)
    (hd : d1 = d2) (hp : p1 = p2) :
    assignParsedInput d1 p1 = assignParsedInput d2 p2 := by
  rw [hd, hp]

/-- C9 witness: two runs on the identical concrete input. -/
theorem claim_binding_deterministic_witness :
    assignParsedInput dFile ⟨["cmd", "a.txt"], []⟩
      = assignParsedInput dFile ⟨["cmd", "a.txt"], []⟩ :=
  claim_binding_deterministic dFile dFile ⟨["cmd", "a.txt"], []⟩ ⟨["cmd", "a.txt"], []⟩
    rfl rfl

/-- C10: firstArgument is total — the empty parsed positional list yields
the empty string, and otherwise the first parsed positional token is
returned. -/
theorem claim_first_argument_total (p : ParsedArgs) :
    (p.positional = [] → firstArgument p = "") ∧
    ∀ t rest, p.positional = t :: rest → firstArgument p = t := by
  constructor
  · intro h; simp [firstArgument, h]
  · intro t rest h; simp [firstArgument, h]

/-- C10 witness: the two cases at concrete parsed inputs. -/
theorem claim_first_argument_total_witness :
    firstArgument ⟨[], []⟩ = "" ∧ firstArgument ⟨["serve", "a.txt"], []⟩ = "serve" :=
  ⟨(claim_first_argument_total ⟨[], []⟩).1 rfl,
   (claim_first_argument_total ⟨["serve", "a.txt"], []⟩).2 "serve" ["a.txt"] rfl⟩

end Console
